import Mathlib

/-!
Shallow embedding of the Dynamic-QR-Code server's QR route module
(`src/routes/qr.ts`) for checking its natural-language specification.

The embedding models the relational store (tables `QR_Code`, `QR_Target`,
`QR_Scan`) as lists of records, and each route handler as a pure function
from store and request data to a response and an updated store.  External
collaborators (the SQL driver, geoip, the user-agent parser, the WHATWG
URL parser) are outside the embedding, exactly as the spec's section 6
delegates them; the handlers are modelled from the point where the route
code manipulates the data itself.
-/

/-- Tests whether `pat` is a leading segment of `hay` (character lists). -/
def startsWithL : List Char → List Char → Bool
  | [], _ => true
  | _ :: _, [] => false
  | p :: ps, h :: hs => p == h && startsWithL ps hs

/-- Substring test on character lists, embedding JavaScript
`String.prototype.includes`. -/
def containsSub : List Char → List Char → Bool
  | [], pat => startsWithL pat []
  | h :: t, pat => startsWithL pat (h :: t) || containsSub t pat

/-- Lower-cases a string character by character, embedding JavaScript
`String.prototype.toLowerCase` on ASCII data. -/
def lowerStr (s : String) : List Char :=
  s.toList.map Char.toLower

/-- Request headers read by the redirect route's prefetch heuristic
(`x-moz`, `purpose`, `x-purpose`, `x-facebook-user-agent`); absent
headers are `none`. -/
structure ReqHeaders where
  xMoz : Option String
  purpose : Option String
  xPurpose : Option String
  xFacebookUserAgent : Option String
deriving Repr, DecidableEq

/-- JavaScript truthiness of a header value: defined and non-empty. -/
def truthyHeader : Option String → Bool
  | none => false
  | some s => !(s == "")

/-- Embedding of the `isPrefetch` expression in `GET /r/:slug`
(src/routes/qr.ts lines 630-645): a hit is classified prefetch when a
prefetch/preview purpose header is present or the lower-cased user-agent
contains one of the crawler tokens. -/
def isPrefetch (headers : ReqHeaders) (uaRaw : String) : Bool :=
  let userAgent := lowerStr uaRaw
  (headers.xMoz == some "prefetch") ||
  (headers.purpose == some "prefetch") ||
  (headers.xPurpose == some "preview") ||
  truthyHeader headers.xFacebookUserAgent ||
  containsSub userAgent "facebookexternalhit".toList ||
  containsSub userAgent "twitterbot".toList ||
  containsSub userAgent "linkedinbot".toList ||
  containsSub userAgent "whatsapp".toList ||
  containsSub userAgent "telegrambot".toList ||
  containsSub userAgent "slackbot".toList ||
  containsSub userAgent "discordbot".toList ||
  containsSub userAgent "preview".toList ||
  containsSub userAgent "crawler".toList ||
  containsSub userAgent "bot".toList

/-- Word-character test for the regex word boundary in the width/height
pattern of `injectLogoIntoSvg` (JavaScript regex character class w). -/
def isWordChar (c : Char) : Bool :=
  c.isAlphanum || c == '_'

/-- Whitespace test for the regex whitespace class used by the viewBox
pattern of `injectLogoIntoSvg`. -/
def isSpaceJS (c : Char) : Bool :=
  c == ' ' || c == '\t' || c == '\n' || c == '\r'

/-- Numeric value of a digit run, embedding `parseInt(·, 10)` on the
captured digits of the SVG attribute patterns. -/
def digitsVal (ds : List Char) : Nat :=
  ds.foldl (fun a c => a * 10 + (c.toNat - 48)) 0

/-- Embedding of the JavaScript idiom `parseInt(·) || d`: the parsed
number, with the fallback when the parse yields the falsy value 0. -/
def jsOrNat (n d : Nat) : Nat :=
  if n = 0 then d else n

/-- Scans a tag body for `attr` (for example `width="`) at a word
boundary, followed by one or more digits and a closing quote, returning
the digits' value and the characters after the closing quote.  Mirrors
the search for the sub-pattern inside `injectLogoIntoSvg`'s width/height
regex. -/
def scanAttr (attr : List Char) : Char → List Char → Option (Nat × List Char)
  | _, [] => none
  | prev, c :: t =>
    match
      (if !isWordChar prev && startsWithL attr (c :: t) then
        let rest := (c :: t).drop attr.length
        let ds := rest.takeWhile Char.isDigit
        let rest' := rest.drop ds.length
        if ds.isEmpty then none
        else
          match rest' with
          | '"' :: r2 => some (digitsVal ds, r2)
          | _ => none
      else none) with
    | some r => some r
    | none => scanAttr attr c t

/-- Characters following the first occurrence of `<svg` up to (not
including) the first subsequent `>`, the region searched by the
width/height regex of `injectLogoIntoSvg`. -/
def firstSvgTagRun : List Char → Option (List Char)
  | [] => none
  | c :: t =>
    if startsWithL "<svg".toList (c :: t) then
      some (((c :: t).drop 4).takeWhile (· != '>'))
    else firstSvgTagRun t

/-- Embedding of the width/height regex match of `injectLogoIntoSvg`
(src/routes/qr.ts line 41): inside the first `<svg` tag, case-insensitive,
captures the digits of `width="…"` and then `height="…"`. -/
def matchWH (svg : String) : Option (Nat × Nat) :=
  match firstSvgTagRun (lowerStr svg) with
  | none => none
  | some run =>
    match scanAttr "width=\"".toList 'g' run with
    | none => none
    | some (w, rest) =>
      match scanAttr "height=\"".toList '"' rest with
      | none => none
      | some (h, _) => some (w, h)

/-- Consumes the exact character `ch` at the head of the input. -/
def expectChar (ch : Char) (s : List Char) : Option (List Char) :=
  match s with
  | c :: t => if c == ch then some t else none
  | [] => none

/-- Consumes one or more whitespace characters, embedding a mandatory
whitespace run in the viewBox regex. -/
def expectSpaces1 (s : List Char) : Option (List Char) :=
  match s with
  | c :: _ => if isSpaceJS c then some (s.dropWhile isSpaceJS) else none
  | [] => none

/-- Consumes one or more digits and returns their numeric value. -/
def expectDigits (s : List Char) : Option (Nat × List Char) :=
  let ds := s.takeWhile Char.isDigit
  if ds.isEmpty then none else some (digitsVal ds, s.drop ds.length)

/-- Parses the viewBox value after its opening quote: optional spaces,
`0`, spaces, `0`, spaces, digits, spaces, digits, optional spaces, and a
closing quote, per the viewBox regex of `injectLogoIntoSvg`. -/
def parseVB (s : List Char) : Option (Nat × Nat) :=
  match expectChar '0' (s.dropWhile isSpaceJS) with
  | none => none
  | some r1 =>
    match expectSpaces1 r1 with
    | none => none
    | some r2 =>
      match expectChar '0' r2 with
      | none => none
      | some r3 =>
        match expectSpaces1 r3 with
        | none => none
        | some r4 =>
          match expectDigits r4 with
          | none => none
          | some (d1, r5) =>
            match expectSpaces1 r5 with
            | none => none
            | some r6 =>
              match expectDigits r6 with
              | none => none
              | some (d2, r7) =>
                match expectChar '"' (r7.dropWhile isSpaceJS) with
                | none => none
                | some _ => some (d1, d2)

/-- Search loop for the viewBox match: tries `parseVB` after each
occurrence of the lower-cased `viewbox="` opener. -/
def matchVBAux : List Char → Option (Nat × Nat)
  | [] => none
  | c :: t =>
    match
      (if startsWithL "viewbox=\"".toList (c :: t) then
        parseVB ((c :: t).drop 9)
      else none) with
    | some r => some r
    | none => matchVBAux t

/-- Embedding of the viewBox regex match of `injectLogoIntoSvg`
(src/routes/qr.ts line 42): finds `viewBox="0 0 a b"` case-insensitively
and captures the two extent numbers. -/
def matchVB (svg : String) : Option (Nat × Nat) :=
  matchVBAux (lowerStr svg)

/-- Canvas size of `injectLogoIntoSvg` (src/routes/qr.ts lines 44-46):
the minimum of the width/height attributes when matched, with fallback
512; computed by the source but unused by the placement geometry. -/
def canvasSizeOf (svg : String) : Nat :=
  match matchWH svg with
  | some (w, h) => min (jsOrNat w 512) (jsOrNat h 512)
  | none => 512

/-- View-box size of `injectLogoIntoSvg` (src/routes/qr.ts lines 48-50):
the minimum of the two viewBox extents when matched, with the default
QR-code view-box size 29 otherwise. -/
def viewBoxSizeOf (svg : String) : Nat :=
  match matchVB svg with
  | some (a, b) => min (jsOrNat a 29) (jsOrNat b 29)
  | none => 29

/-- Logo placement geometry of `injectLogoIntoSvg` (src/routes/qr.ts
lines 52-55): logo extent and top-left x, y in view-box coordinates. -/
def logoGeometry (svg : String) (sizePct : ℚ) : ℚ × ℚ × ℚ :=
  let viewBoxSize : ℚ := (viewBoxSizeOf svg : ℚ)
  let logoSizeInViewBox := sizePct / 100 * viewBoxSize
  (logoSizeInViewBox,
   (viewBoxSize - logoSizeInViewBox) / 2,
   (viewBoxSize - logoSizeInViewBox) / 2)

/-- Case-insensitive version of `startsWithL` for the `<svg` tag search
in the namespace-normalisation regex. -/
def startsWithCI : List Char → List Char → Bool
  | [], _ => true
  | _ :: _, [] => false
  | p :: ps, h :: hs => p.toLower == h.toLower && startsWithCI ps hs

/-- Attribute text spliced into the opening tag by the xlink-namespace
normalisation of `injectLogoIntoSvg`, replacing the tag's closing `>`. -/
def xlinkAttr : List Char :=
  " xmlns:xlink=\"http://www.w3.org/1999/xlink\">".toList

/-- Attempts the opening-tag pattern of the xlink normalisation at the
head of the input: `<svg` followed either directly by `>` or by a
whitespace character, further attribute characters and `>`; on success
returns the input with the matched `>` replaced by `xlinkAttr`. -/
def tryTagAt (s : List Char) : Option (List Char) :=
  if startsWithCI "<svg".toList s then
    match s.drop 4 with
    | '>' :: r => some (s.take 4 ++ xlinkAttr ++ r)
    | c2 :: rest2 =>
      if isSpaceJS c2 then
        let attrs := (c2 :: rest2).takeWhile (· != '>')
        match (c2 :: rest2).drop attrs.length with
        | '>' :: r2 => some (s.take 4 ++ attrs ++ xlinkAttr ++ r2)
        | _ => none
      else none
    | [] => none
  else none

/-- Search loop applying `tryTagAt` at each position, embedding the
replace of the first opening-tag match in `injectLogoIntoSvg`
(src/routes/qr.ts lines 58-63). -/
def insertXlink : List Char → Option (List Char)
  | [] => none
  | c :: t =>
    match tryTagAt (c :: t) with
    | some r => some r
    | none => (insertXlink t).map (fun r => c :: r)

/-- Embedding of the xlink-namespace normalisation in
`injectLogoIntoSvg`: when the image does not already declare
`xmlns:xlink` (case-insensitive), splice the declaration into the first
opening `<svg …>` tag; otherwise, or when no such tag exists, the image
is left unchanged. -/
def ensureXlink (svg : List Char) : List Char :=
  if containsSub (svg.map Char.toLower) "xmlns:xlink=".toList then svg
  else
    match insertXlink svg with
    | some r => r
    | none => svg

/-- Replaces the first occurrence of `pat` in `s` by `repl`, embedding
JavaScript `String.prototype.replace` with a plain (non-empty) pattern
string; when the pattern does not occur the input is returned
unchanged. -/
def replaceOnce (s pat repl : List Char) : List Char :=
  match s with
  | [] => []
  | c :: t =>
    if startsWithL pat (c :: t) then repl ++ (c :: t).drop pat.length
    else c :: replaceOnce t pat repl

/-- Deterministic rendering of a rational into the generated markup,
standing in for JavaScript's decimal formatting of interpolated numbers
(the exact digit string is irrelevant to every property proved here). -/
def ratToString (q : ℚ) : String :=
  toString q.num ++ "/" ++ toString q.den

/-- Markup spliced into the image by `injectLogoIntoSvg`: the optional
debug rectangle and label, the knockout rectangle, the logo image tag
and the border rectangle, with the geometry of `logoGeometry` and the
knockout padding of src/routes/qr.ts lines 65-75. -/
def injectedMarkup (svg logoUrl : String) (sizePct : ℚ) (debug : Bool)
    (backgroundColor borderColor : String) : String :=
  let viewBoxSize : ℚ := (viewBoxSizeOf svg : ℚ)
  let logoSizeInViewBox := (logoGeometry svg sizePct).1
  let x := (logoGeometry svg sizePct).2.1
  let y := (logoGeometry svg sizePct).2.2
  let debugRect :=
    if debug then
      "<rect x=\"" ++ ratToString x ++ "\" y=\"" ++ ratToString y ++
      "\" width=\"" ++ ratToString logoSizeInViewBox ++ "\" height=\"" ++
      ratToString logoSizeInViewBox ++
      "\" fill=\"none\" stroke=\"red\" stroke-width=\"0.1\" />"
    else ""
  let debugText :=
    if debug then
      "<text x=\"1\" y=\"2\" fill=\"red\" font-size=\"1\">logoSize=" ++
      ratToString logoSizeInViewBox ++ " x=" ++ ratToString x ++ " y=" ++
      ratToString y ++ "</text>"
    else ""
  let pad := max (1/10 : ℚ) (logoSizeInViewBox * (6/100))
  let kx := max 0 (x - pad)
  let ky := max 0 (y - pad)
  let kw := min viewBoxSize (logoSizeInViewBox + pad * 2)
  let kh := min viewBoxSize (logoSizeInViewBox + pad * 2)
  let knockout :=
    "<rect x=\"" ++ ratToString kx ++ "\" y=\"" ++ ratToString ky ++
    "\" width=\"" ++ ratToString kw ++ "\" height=\"" ++ ratToString kh ++
    "\" rx=\"" ++ ratToString pad ++ "\" ry=\"" ++ ratToString pad ++
    "\" fill=\"" ++ backgroundColor ++ "\" />"
  let imageTag :=
    "<image href=\"" ++ logoUrl ++ "\" x=\"" ++ ratToString x ++
    "\" y=\"" ++ ratToString y ++ "\" width=\"" ++
    ratToString logoSizeInViewBox ++ "\" height=\"" ++
    ratToString logoSizeInViewBox ++
    "\" preserveAspectRatio=\"xMidYMid meet\" />"
  let borderRect :=
    "<rect x=\"" ++ ratToString kx ++ "\" y=\"" ++ ratToString ky ++
    "\" width=\"" ++ ratToString kw ++ "\" height=\"" ++ ratToString kh ++
    "\" rx=\"" ++ ratToString pad ++ "\" ry=\"" ++ ratToString pad ++
    "\" fill=\"none\" stroke=\"" ++ borderColor ++
    "\" stroke-width=\"0.1\" />"
  debugRect ++ debugText ++ knockout ++ imageTag ++ borderRect

/-- Embedding of `injectLogoIntoSvg` (src/routes/qr.ts lines 29-77):
determines the view-box extent (defaults when undeterminable), computes
centred logo geometry and knockout padding, normalises the xlink
namespace, and splices the markup of `injectedMarkup` in front of the
closing `</svg>` tag (a no-op when that tag is absent).  The unused
canvas size computed by the source is exposed separately as
`canvasSizeOf`. -/
def injectLogoIntoSvg (svg logoUrl : String) (sizePct : ℚ) (debug : Bool)
    (backgroundColor borderColor : String) : String :=
  String.mk
    (replaceOnce (ensureXlink svg.toList) "</svg>".toList
      ((injectedMarkup svg logoUrl sizePct debug backgroundColor borderColor ++ "</svg>").toList))

/-- Design sub-document stored on a `QR_Code` row, as serialised by the
create and design routes: foreground, background, error-correction
level, output format, optional logo reference and logo size
percentage. -/
structure Design where
  fg : String
  bg : String
  ec : String
  format : String
  logoUrl : Option String
  logoSizePct : ℚ
deriving Repr, DecidableEq

/-- Row of the `QR_Code` table as the routes read and write it. -/
structure QRCode where
  id : String
  userId : String
  name : String
  slug : String
  design : Design
  archived : Bool
  currentTargetId : Option String
deriving Repr, DecidableEq

/-- Row of the `QR_Target` table: a versioned redirect destination with
its snapshotted UTM JSON text. -/
structure Target where
  id : String
  qrCodeId : String
  url : String
  version : Int
  utm : Option String
deriving Repr, DecidableEq

/-- Row of the `QR_Scan` table, restricted to the columns the verified
properties concern; the remaining columns (geo, device, language,
referer) are filled from external collaborators (geoip, the user-agent
parser) and carried opaquely by the real insert. -/
structure Scan where
  qrCodeId : String
  targetId : String
  uaRaw : String
  utm : Option String
  isPrefetchFlag : Bool
deriving Repr, DecidableEq

/-- Relational store backing the routes: the three tables the QR module
touches. -/
structure Store where
  codes : List QRCode
  targets : List Target
  scans : List Scan
deriving Repr, DecidableEq

/-- Trim of leading and trailing whitespace, embedding JavaScript
`String.prototype.trim` on the body fields. -/
def trimStr (s : String) : String :=
  String.mk (((s.toList.dropWhile isSpaceJS).reverse.dropWhile isSpaceJS).reverse)

/-- Embedding of the JavaScript idiom `String(x || d)` on an optional
body field: the supplied string unless it is absent or empty. -/
def orDefault : Option String → String → String
  | none, d => d
  | some s, d => if s = "" then d else s

/-- JSON rendering of one UTM attribute: `null` for the empty (falsy)
trimmed value, a JSON string otherwise, per the `utmData` construction
in the create and retarget routes. -/
def jsonNullOr (s : String) : String :=
  if s = "" then "null" else "\"" ++ s ++ "\""

/-- Embedding of the `utmData` JSON string built by `JSON.stringify` in
the create and retarget routes (src/routes/qr.ts lines 270-274 and
394-398). -/
def utmJson (source medium campaign : String) : String :=
  "\x7b\"source\":" ++ jsonNullOr (trimStr source) ++
  ",\"medium\":" ++ jsonNullOr (trimStr medium) ++
  ",\"campaign\":" ++ jsonNullOr (trimStr campaign) ++ "\x7d"

/-- Embedding of the JavaScript idiom `v || null`: the value unless it
is absent or the empty string. -/
def jsOrNone : Option String → Option String
  | none => none
  | some s => if s = "" then none else some s

/-- Embedding of the logo-size clamp shared by the create and design
routes (src/routes/qr.ts lines 285 and 456):
`Math.max(10, Math.min(40, Number(body.logoSizePct || 22)))`, where an
absent or falsy body value falls back to 22. -/
def clampLogoSizePct (v : Option ℚ) : ℚ :=
  max 10 (min 40 (match v with | none => 22 | some q => if q = 0 then 22 else q))

/-- Design document assembled from the request body by the create and
design routes, with the source's defaulting, case normalisation,
logo-reference emptiness check and logo-size clamp. -/
def mkDesign (fg bg ec format logoUrl : Option String) (logoSizePct : Option ℚ) : Design :=
  let rawLogoUrl := trimStr (orDefault logoUrl "")
  { fg := orDefault fg "#0b3d91"
    bg := orDefault bg "#ffffff"
    ec := String.mk ((orDefault ec "M").toList.map Char.toUpper)
    format := String.mk ((orDefault format "svg").toList.map Char.toLower)
    logoUrl := if rawLogoUrl = "" then none else some rawLogoUrl
    logoSizePct := clampLogoSizePct logoSizePct }

/-- Request body of `POST /qr/create` and `POST /qr/:slug/retarget`,
restricted to the fields those routes read; the destination `url` is the
output of `normalizeUrl`, whose WHATWG URL validation is an external
collaborator applied before any store access. -/
structure CreateBody where
  name : Option String
  url : String
  utm_source : String
  utm_medium : String
  utm_campaign : String
  fg : Option String
  bg : Option String
  ec : Option String
  format : Option String
  logoUrl : Option String
  logoSizePct : Option ℚ
deriving Repr, DecidableEq

/-- Embedding of `POST /qr/create` (src/routes/qr.ts lines 252-326):
inserts the `QR_Code` row with its design, inserts the version-1
`QR_Target` row carrying the UTM JSON, then points `currentTargetId` at
it.  The generated slug and the database-generated row ids are passed
explicitly. -/
def createHandler (st : Store) (userId : String) (body : CreateBody)
    (slug qrId targetId : String) : Store :=
  let design := mkDesign body.fg body.bg body.ec body.format body.logoUrl body.logoSizePct
  let utmData := utmJson body.utm_source body.utm_medium body.utm_campaign
  let newCode : QRCode :=
    { id := qrId, userId := userId, name := trimStr (orDefault body.name "")
      slug := slug, design := design, archived := false, currentTargetId := none }
  let newTarget : Target :=
    { id := targetId, qrCodeId := qrId, url := body.url, version := 1, utm := some utmData }
  let st1 : Store := { st with codes := st.codes ++ [newCode], targets := st.targets ++ [newTarget] }
  { st1 with
    codes := st1.codes.map (fun c =>
      if c.id == qrId then { c with currentTargetId := some targetId } else c) }

/-- Embedding of the next-version computation in
`POST /qr/:slug/retarget` (src/routes/qr.ts lines 409-412):
`ISNULL(MAX(Version), 0) + 1` over the link's targets. -/
def nextVersion (st : Store) (qrId : String) : Int :=
  ((st.targets.filter (fun t => t.qrCodeId == qrId)).foldl
    (fun m t => max m t.version) 0) + 1

/-- Embedding of `POST /qr/:slug/retarget` (src/routes/qr.ts lines
377-436): looks up the caller's link by slug, computes the next version,
inserts the new `QR_Target` row with the UTM JSON, and repoints
`currentTargetId`; returns whether the link was found together with the
updated store. -/
def retargetHandler (st : Store) (userId slug url : String)
    (source medium campaign : String) (newId : String) : Bool × Store :=
  match st.codes.find? (fun q => q.slug == slug && q.userId == userId) with
  | none => (false, st)
  | some q =>
    let utmData := utmJson source medium campaign
    let ver := nextVersion st q.id
    let newTarget : Target :=
      { id := newId, qrCodeId := q.id, url := url, version := ver, utm := some utmData }
    (true,
      { st with
        targets := st.targets ++ [newTarget]
        codes := st.codes.map (fun c =>
          if c.id == q.id then { c with currentTargetId := some newId } else c) })

/-- Embedding of `POST /qr/:slug/design` (src/routes/qr.ts lines
439-471): replaces the design document of the caller's link matching the
slug. -/
def designHandler (st : Store) (userId slug : String)
    (fg bg ec format logoUrl : Option String) (logoSizePct : Option ℚ) : Store :=
  let design := mkDesign fg bg ec format logoUrl logoSizePct
  { st with
    codes := st.codes.map (fun c =>
      if c.slug == slug && c.userId == userId then { c with design := design } else c) }

/-- Embedding of `POST /qr/:slug/delete` (src/routes/qr.ts lines
474-488): executes `DELETE FROM dbo.QR_Code WHERE Slug=@slug AND
User_Id=@uid`, removing the matching link rows; no other table is
touched by the statement. -/
def deleteHandler (st : Store) (userId slug : String) : Store :=
  { st with
    codes := st.codes.filter (fun q => !(q.slug == slug && q.userId == userId)) }

/-- Inbound request data read by the redirect route: the classifier
headers and the raw user-agent string. -/
structure ScanRequest where
  headers : ReqHeaders
  userAgent : String
deriving Repr, DecidableEq

/-- Response of the redirect route. -/
inductive RResponse where
  | notFound
  | redirect (location : String)
deriving Repr, DecidableEq

/-- Embedding of the lookup query of `GET /r/:slug` (src/routes/qr.ts
lines 607-614): the first `QR_Code` row with the slug joined to the
`QR_Target` row referenced by its `currentTargetId`; the query has no
condition on the `Archived` column. -/
def resolveSlug (st : Store) (slug : String) : Option (QRCode × Target) :=
  (st.codes.filterMap (fun q =>
    if q.slug == slug then
      match q.currentTargetId with
      | some tid => (st.targets.find? (fun t => t.id == tid)).map (fun t => (q, t))
      | none => none
    else none)).head?

/-- Embedding of `GET /r/:slug` (src/routes/qr.ts lines 602-695): 404
when the lookup fails; otherwise a `QR_Scan` row is inserted (with
`Is_Prefetch` 0 and the target's UTM text copied over) unless the hit is
classified as prefetch, and the response is a 302 redirect to the
target's stored URL. -/
def rSlugHandler (st : Store) (req : ScanRequest) (slug : String) : RResponse × Store :=
  match resolveSlug st slug with
  | none => (RResponse.notFound, st)
  | some (q, t) =>
    if isPrefetch req.headers req.userAgent then
      (RResponse.redirect t.url, st)
    else
      (RResponse.redirect t.url,
        { st with scans := st.scans ++
            [{ qrCodeId := q.id, targetId := t.id, uaRaw := req.userAgent,
               utm := jsOrNone t.utm, isPrefetchFlag := false }] })

/-- Embedding of `GET /api/user/:userId/qrcodes` (src/routes/qr.ts lines
698-713): the handler performs no cookie or token check; it returns
status 200 with the `(Id, Name)` pairs of the rows owned by the
requested user id, combined by SQL `UNION` (duplicate-eliminating) with
the sentinel row `("all", "All QR Codes")`.  The requester's access
cookie is accepted as an argument only to record that the handler never
reads it. -/
def userQrcodesHandler (st : Store) (atCookie : Option String) (userId : String) :
    Nat × List (String × String) :=
  let _ := atCookie
  (200,
    (((st.codes.filter (fun c => c.userId == userId)).map (fun c => (c.id, c.name))) ++
      [("all", "All QR Codes")]).dedup)

/-- Design document with the UI defaults, used by the concrete fixture
stores below. -/
def defaultDesign : Design :=
  { fg := "#0b3d91", bg := "#ffffff", ec := "M", format := "svg",
    logoUrl := none, logoSizePct := 22 }

/-- Fixture link for the redirect fixtures: slug `abc`, retargeted once,
currently pointing at its version-2 target. -/
def qR : QRCode :=
  { id := "qc1", userId := "u1", name := "Promo", slug := "abc",
    design := defaultDesign, archived := false, currentTargetId := some "t2" }

/-- Version-1 target of `qR`. -/
def t1R : Target :=
  { id := "t1", qrCodeId := "qc1", url := "https://example.com/page",
    version := 1, utm := some (utmJson "" "" "") }

/-- Version-2 target of `qR`, carrying the stored UTM source
`newsletter`. -/
def t2R : Target :=
  { id := "t2", qrCodeId := "qc1", url := "https://example.com/v2",
    version := 2, utm := some (utmJson "newsletter" "" "") }

/-- Fixture store for the redirect claims: one link, two historical
targets, no scans. -/
def exStoreR : Store :=
  { codes := [qR], targets := [t1R, t2R], scans := [] }

/-- Request of a standard desktop browser: no purpose headers, a Chrome
user-agent containing no crawler token. -/
def desktopReq : ScanRequest :=
  { headers := { xMoz := none, purpose := none, xPurpose := none, xFacebookUserAgent := none },
    userAgent := "Mozilla/5.0 (Windows NT 10.0; Win64; x64) Chrome/120.0 Safari/537.36" }

/-- Request of the Facebook link-unfurling crawler. -/
def fbReq : ScanRequest :=
  { headers := { xMoz := none, purpose := none, xPurpose := none, xFacebookUserAgent := none },
    userAgent := "facebookexternalhit/1.1 (+http://www.facebook.com/externalhit_uatext.php)" }

/-- Fixture link whose archived flag is set, with a live current
target. -/
def qArch : QRCode :=
  { id := "qc2", userId := "u1", name := "Old", slug := "arch",
    design := defaultDesign, archived := true, currentTargetId := some "t3" }

/-- Current target of the archived fixture link. -/
def t3R : Target :=
  { id := "t3", qrCodeId := "qc2", url := "https://example.com/x",
    version := 1, utm := none }

/-- Fixture store containing only the archived link. -/
def exStoreArch : Store :=
  { codes := [qArch], targets := [t3R], scans := [] }

/-- Fixture link deleted in the delete fixtures. -/
def qDel : QRCode :=
  { id := "qc3", userId := "u1", name := "Gone", slug := "dl",
    design := defaultDesign, archived := false, currentTargetId := some "t4" }

/-- Fixture link with the same slug but another owner, untouched by the
delete fixtures. -/
def qKeep : QRCode :=
  { id := "qc4", userId := "u2", name := "Kept", slug := "dl",
    design := defaultDesign, archived := false, currentTargetId := none }

/-- Target history row of the deleted fixture link. -/
def t4R : Target :=
  { id := "t4", qrCodeId := "qc3", url := "https://example.com/d",
    version := 1, utm := none }

/-- Scan history row of the deleted fixture link. -/
def s4R : Scan :=
  { qrCodeId := "qc3", targetId := "t4", uaRaw := "ua", utm := none,
    isPrefetchFlag := false }

/-- Fixture store for the delete claims: the victim link, a same-slug
link of another owner, and the victim's target and scan history. -/
def exStoreDel : Store :=
  { codes := [qDel, qKeep], targets := [t4R], scans := [s4R] }

/-- Fixture link for the design-update claim. -/
def qDes : QRCode :=
  { id := "qc5", userId := "u1", name := "Styled", slug := "st",
    design := defaultDesign, archived := false, currentTargetId := none }

/-- Fixture store for the design-update claim. -/
def exStoreDes : Store :=
  { codes := [qDes], targets := [], scans := [] }

/-- Expected row after the design-update fixture stores an out-of-range
logo size of 97, which the clamp caps at 40. -/
def qDesAfter : QRCode :=
  { qDes with design := mkDesign none none none none none (some 97) }

/-- Fixture rows for the unauthenticated listing claim: two links of two
different owners. -/
def qList1 : QRCode :=
  { id := "qa1", userId := "u1", name := "Code One", slug := "l1",
    design := defaultDesign, archived := false, currentTargetId := none }

/-- Second listing fixture row, owned by another user. -/
def qList2 : QRCode :=
  { id := "qa2", userId := "u2", name := "Code Two", slug := "l2",
    design := defaultDesign, archived := false, currentTargetId := none }

/-- Fixture store for the unauthenticated listing claim. -/
def exStoreList : Store :=
  { codes := [qList1, qList2], targets := [], scans := [] }

/-- Link of the canonical retarget run: one owner, slug `s`, starting at
its version-1 target `t0`. -/
def iterCode : QRCode :=
  { id := "q", userId := "u", name := "n", slug := "s",
    design := defaultDesign, archived := false, currentTargetId := some "t0" }

/-- Version-1 target of the canonical retarget run. -/
def iterTarget0 : Target :=
  { id := "t0", qrCodeId := "q", url := "https://example.com/page",
    version := 1, utm := none }

/-- Base store of the canonical retarget run. -/
def iterBase : Store :=
  { codes := [iterCode], targets := [iterTarget0], scans := [] }

/-- Fresh target ids for the canonical retarget run. -/
def tName : Nat → String
  | 0 => "t0"
  | n + 1 => "t" ++ toString (n + 1)

/-- Store after `n` successive retargets of the canonical link, each with
a fresh target id. -/
def iterStore : Nat → Store
  | 0 => iterBase
  | n + 1 =>
    (retargetHandler (iterStore n) "u" "s" "https://example.com/v2" "" "" ""
      (tName (n + 1))).2

/-- Version list `[1, …, k]` as integers, the expected target history
after `k - 1` retargets. -/
def rangeVersions : Nat → List Int
  | 0 => []
  | k + 1 => rangeVersions k ++ [(k : Int) + 1]

/-- Counterexample image for the logo-extent claims: carries explicit
`width`/`height` attributes of 512 and a 29-unit viewBox, like the SVG
markup the QR encoder emits. -/
def svgWH : String :=
  "<svg xmlns=\"http://www.w3.org/2000/svg\" width=\"512\" height=\"512\" viewBox=\"0 0 29 29\" shape-rendering=\"crispEdges\"></svg>"

/-- Witness image whose declared coordinate-system bounds are 512
units. -/
def svgVB512 : String := "<svg viewBox=\"0 0 512 512\"></svg>"

/-- Minimal image with no determinable extent: no dimension attributes
and no viewBox. -/
def svgBare : String := "<svg></svg>"

lemma startsWithL_le_length (pat : List Char) :
    ∀ s : List Char, startsWithL pat s = true → pat.length ≤ s.length := by
  induction pat with
  | nil => intro s _; simp
  | cons p ps ih =>
    intro s h
    cases s with
    | nil => simp [startsWithL] at h
    | cons c t =>
      simp only [startsWithL, Bool.and_eq_true] at h
      simpa using Nat.succ_le_succ (ih t h.2)


lemma replaceOnce_length (pat repl : List Char) (hpat : pat ≠ []) :
    ∀ s : List Char, containsSub s pat = true →
      (replaceOnce s pat repl).length + pat.length = s.length + repl.length := by
  intro s
  induction s with
  | nil =>
    intro h
    cases pat with
    | nil => exact absurd rfl hpat
    | cons p ps => simp [containsSub, startsWithL] at h
  | cons c t ih =>
    intro h
    by_cases hs : startsWithL pat (c :: t) = true
    · have hle := startsWithL_le_length pat (c :: t) hs
      simp only [replaceOnce, hs, if_true, List.length_append, List.length_drop]
      omega
    · simp only [containsSub, Bool.or_eq_true] at h
      rcases h with h | h
      · exact absurd h hs
      · have hs' : startsWithL pat (c :: t) = false := by
          rwa [Bool.not_eq_true] at hs
        simp only [replaceOnce, hs', Bool.false_eq_true, if_false, List.length_cons]
        have := ih h
        omega

lemma startsWithCI_le_length (pat : List Char) :
    ∀ s : List Char, startsWithCI pat s = true → pat.length ≤ s.length := by
  induction pat with
  | nil => intro s _; simp
  | cons p ps ih =>
    intro s h
    cases s with
    | nil => simp [startsWithCI] at h
    | cons c t =>
      simp only [startsWithCI, Bool.and_eq_true] at h
      simpa using Nat.succ_le_succ (ih t h.2)

lemma takeWhile_length_le (p : Char → Bool) :
    ∀ l : List Char, (l.takeWhile p).length ≤ l.length := by
  intro l
  induction l with
  | nil => simp
  | cons c t ih =>
    by_cases hp : p c = true
    · simpa [List.takeWhile, hp] using ih
    · simp [List.takeWhile, hp]

lemma tryTagAt_le_length (s r : List Char) (h : tryTagAt s = some r) :
    s.length ≤ r.length := by
  have hx : 1 ≤ xlinkAttr.length := by decide
  unfold tryTagAt at h
  split at h
  case isTrue hci =>
    have h4 : 4 ≤ s.length := by
      simpa using startsWithCI_le_length "<svg".toList s hci
    split at h
    next rest heq =>
      have hlen : (s.drop 4).length = rest.length + 1 := by rw [heq]; simp
      rw [List.length_drop] at hlen
      have hr : r = s.take 4 ++ xlinkAttr ++ rest := by
        injection h with h'; exact h'.symm
      subst hr
      simp only [List.length_append, List.length_take]
      omega
    next c2 rest2 hne heq =>
      split at h
      case isTrue hsp =>
        dsimp only at h
        split at h
        next r2 heq2 =>
          have hlen : (s.drop 4).length = rest2.length + 1 := by rw [heq]; simp
          rw [List.length_drop] at hlen
          have htw : ((c2 :: rest2).takeWhile (· != '>')).length ≤ rest2.length + 1 := by
            simpa using takeWhile_length_le (· != '>') (c2 :: rest2)
          have hlen2 : ((c2 :: rest2).drop ((c2 :: rest2).takeWhile (· != '>')).length).length
              = r2.length + 1 := by rw [heq2]; simp
          rw [List.length_drop] at hlen2
          simp only [List.length_cons] at hlen2
          have hr : r = s.take 4 ++ (c2 :: rest2).takeWhile (· != '>') ++ xlinkAttr ++ r2 := by
            injection h with h'; exact h'.symm
          subst hr
          simp only [List.length_append, List.length_take]
          omega
        next h1 h2 => exact absurd h (by simp)
      case isFalse hsp => exact absurd h (by simp)
    next heq => exact absurd h (by simp)
  case isFalse hci => exact absurd h (by simp)

lemma insertXlink_le_length :
    ∀ s r : List Char, insertXlink s = some r → s.length ≤ r.length := by
  intro s
  induction s with
  | nil => intro r h; unfold insertXlink at h; exact absurd h (by simp)
  | cons c t ih =>
    intro r h
    unfold insertXlink at h
    split at h
    next r' heq =>
      injection h with h'
      subst h'
      exact tryTagAt_le_length (c :: t) r' heq
    next heq =>
      cases hr : insertXlink t with
      | none => rw [hr] at h; simp at h
      | some r2 =>
        rw [hr] at h
        have h' : c :: r2 = r := by simpa using h
        subst h'
        simpa using ih r2 hr

lemma ensureXlink_le_length (s : List Char) : s.length ≤ (ensureXlink s).length := by
  unfold ensureXlink
  split
  · exact le_refl _
  · split
    next r heq => exact insertXlink_le_length s r heq
    next => exact le_refl _

lemma string_data_append (a b : String) : (a ++ b).data = a.data ++ b.data := rfl

lemma injectedMarkup_pos (svg logoUrl : String) (pct : ℚ) (debug : Bool) (bg fg : String) :
    0 < (injectedMarkup svg logoUrl pct debug bg fg).toList.length := by
  unfold injectedMarkup
  simp only [String.toList, string_data_append, List.length_append]
  simp only [List.length_cons, List.length_nil]
  omega

lemma injectLogo_longer (svg logoUrl : String) (pct : ℚ) (debug : Bool) (bg fg : String)
    (h : containsSub (ensureXlink svg.toList) "</svg>".toList = true) :
    svg.toList.length < (injectLogoIntoSvg svg logoUrl pct debug bg fg).toList.length := by
  have hclose : ("</svg>".toList : List Char) ≠ [] := by decide
  have h6 : ("</svg>".toList : List Char).length = 6 := by decide
  have hrep := replaceOnce_length "</svg>".toList
    ((injectedMarkup svg logoUrl pct debug bg fg ++ "</svg>").toList) hclose
    (ensureXlink svg.toList) h
  have hx := ensureXlink_le_length svg.toList
  have hpos := injectedMarkup_pos svg logoUrl pct debug bg fg
  have happ : ((injectedMarkup svg logoUrl pct debug bg fg ++ "</svg>").toList).length
      = (injectedMarkup svg logoUrl pct debug bg fg).toList.length + 6 := by
    rw [show ((injectedMarkup svg logoUrl pct debug bg fg ++ "</svg>").toList)
        = (injectedMarkup svg logoUrl pct debug bg fg).toList ++ "</svg>".toList from rfl,
      List.length_append, h6]
  rw [happ, h6] at hrep
  have hres : (injectLogoIntoSvg svg logoUrl pct debug bg fg).toList
      = replaceOnce (ensureXlink svg.toList) "</svg>".toList
          ((injectedMarkup svg logoUrl pct debug bg fg ++ "</svg>").toList) := rfl
  rw [hres]
  omega

/-- C8: every request whose user-agent case-insensitively contains
"facebookexternalhit" is classified prefetch regardless of the other
headers, and a request carrying no prefetch/preview header whose
user-agent contains none of the crawler tokens is classified
non-prefetch. -/
theorem classifier_facebook_and_desktop :
    (∀ (h : ReqHeaders) (ua : String),
      containsSub (lowerStr ua) "facebookexternalhit".toList = true →
      isPrefetch h ua = true) ∧
    (∀ ua : String,
      containsSub (lowerStr ua) "facebookexternalhit".toList = false →
      containsSub (lowerStr ua) "twitterbot".toList = false →
      containsSub (lowerStr ua) "linkedinbot".toList = false →
      containsSub (lowerStr ua) "whatsapp".toList = false →
      containsSub (lowerStr ua) "telegrambot".toList = false →
      containsSub (lowerStr ua) "slackbot".toList = false →
      containsSub (lowerStr ua) "discordbot".toList = false →
      containsSub (lowerStr ua) "preview".toList = false →
      containsSub (lowerStr ua) "crawler".toList = false →
      containsSub (lowerStr ua) "bot".toList = false →
      isPrefetch ⟨none, none, none, none⟩ ua = false) := by
  constructor
  · intro h ua hc
    simp at hc
    simp [isPrefetch, hc]
  · intro ua h1 h2 h3 h4 h5 h6 h7 h8 h9 h10
    simp at h1 h2 h3 h4 h5 h6 h7 h8 h9 h10
    simp [isPrefetch, truthyHeader, h1, h2, h3, h4, h5, h6, h7, h8, h9, h10]

/-- Witness for C8: the Facebook crawler user-agent is flagged even with
a junk `x-moz` header present, and a plain desktop Chrome user-agent
with no headers is not flagged. -/
theorem classifier_facebook_and_desktop_witness :
    isPrefetch ⟨some "junk", none, none, none⟩
      "Mozilla/5.0 (compatible; FacebookExternalHit/1.1; +http://www.facebook.com/externalhit_uatext.php)" = true ∧
    isPrefetch ⟨none, none, none, none⟩
      "Mozilla/5.0 (Windows NT 10.0; Win64; x64) Chrome/120.0 Safari/537.36" = false := by
  constructor
  · exact classifier_facebook_and_desktop.1 _ _ (by decide)
  · exact classifier_facebook_and_desktop.2 _ (by decide) (by decide) (by decide) (by decide)
      (by decide) (by decide) (by decide) (by decide) (by decide) (by decide)

/-- C10: the per-user QR listing endpoint performs no authentication or
ownership check: the response status is always 200 (never 401), the
response is independent of the requester's access cookie, and it lists
the id and name of every link owned by the requested user id. -/
theorem user_qrcodes_no_auth :
    ∀ (st : Store) (atCookie : Option String) (userId : String),
      (userQrcodesHandler st atCookie userId).1 = 200 ∧
      userQrcodesHandler st atCookie userId = userQrcodesHandler st none userId ∧
      ∀ c ∈ st.codes, c.userId = userId →
        (c.id, c.name) ∈ (userQrcodesHandler st atCookie userId).2 := by
  intro st ac uid
  refine ⟨rfl, rfl, fun c hc hu => ?_⟩
  simp only [userQrcodesHandler, List.mem_dedup, List.mem_append, List.mem_map,
    List.mem_filter]
  exact Or.inl ⟨c, ⟨hc, by simp [hu]⟩, rfl⟩

/-- Witness for C10: with a cookie belonging to nobody in particular,
the listing for user `u1` still answers 200 and includes `u1`'s code. -/
theorem user_qrcodes_no_auth_witness :
    (userQrcodesHandler exStoreList (some "someone-elses-cookie") "u1").1 = 200 ∧
    (qList1.id, qList1.name) ∈
      (userQrcodesHandler exStoreList (some "someone-elses-cookie") "u1").2 :=
  ⟨(user_qrcodes_no_auth exStoreList (some "someone-elses-cookie") "u1").1,
   (user_qrcodes_no_auth exStoreList (some "someone-elses-cookie") "u1").2.2 qList1
     (by simp [exStoreList]) rfl⟩

lemma map_pointerUpdate_logoSizePct (l : List QRCode) (qid tid : String) :
    (l.map (fun c => if c.id == qid then { c with currentTargetId := some tid } else c)).map
      (fun c => c.design.logoSizePct) = l.map (fun c => c.design.logoSizePct) := by
  induction l with
  | nil => rfl
  | cons c t ih =>
    simp only [List.map_cons, ih]
    congr 1
    by_cases hc : (c.id == qid) = true
    · rw [if_pos hc]
    · rw [if_neg hc]

/-- C9: the logo size percentage stored by link creation and by a design
update is the supplied value clamped into the band 10 to 40: the clamp
always lands in that band, creation appends a link whose stored
percentage is exactly the clamp of the supplied value, and every row a
design update matches ends up with its stored percentage in the band. -/
theorem logo_size_clamped :
    (∀ v : Option ℚ, 10 ≤ clampLogoSizePct v ∧ clampLogoSizePct v ≤ 40) ∧
    (∀ (st : Store) (userId : String) (body : CreateBody) (slug qrId targetId : String),
      (createHandler st userId body slug qrId targetId).codes.map
          (fun c => c.design.logoSizePct)
        = st.codes.map (fun c => c.design.logoSizePct)
            ++ [clampLogoSizePct body.logoSizePct]) ∧
    (∀ (st : Store) (userId slug : String) (fg bg ec format logoUrl : Option String)
        (pct : Option ℚ) (c : QRCode),
      c ∈ (designHandler st userId slug fg bg ec format logoUrl pct).codes →
      (c.slug == slug && c.userId == userId) = true →
      10 ≤ c.design.logoSizePct ∧ c.design.logoSizePct ≤ 40) := by
  refine ⟨fun v => ⟨le_max_left _ _, max_le (by norm_num) (min_le_left _ _)⟩, ?_, ?_⟩
  · intro st u body slug qrId tid
    show ((st.codes ++ [_]).map _).map _ = _
    rw [map_pointerUpdate_logoSizePct]
    simp [mkDesign]
  · intro st u slug fg bg ec fmt lu pct c hc hmatch
    have hc' : ∃ c0 ∈ st.codes,
        (if (c0.slug == slug && c0.userId == u) = true
          then { c0 with design := mkDesign fg bg ec fmt lu pct } else c0) = c := by
      simpa [designHandler, List.mem_map] using hc
    obtain ⟨c0, hc0, heq⟩ := hc'
    by_cases h0 : (c0.slug == slug && c0.userId == u) = true
    · rw [if_pos h0] at heq
      rw [← heq]
      exact ⟨le_max_left _ _, max_le (by norm_num) (min_le_left _ _)⟩
    · rw [if_neg h0] at heq
      rw [← heq] at hmatch
      exact absurd hmatch h0

/-- Witness for C9: updating the design of the fixture link with an
out-of-range logo size of 97 stores a percentage inside the band. -/
theorem logo_size_clamped_witness :
    10 ≤ qDesAfter.design.logoSizePct ∧ qDesAfter.design.logoSizePct ≤ 40 :=
  logo_size_clamped.2.2 exStoreDes "u1" "st" none none none none none (some 97) qDesAfter
    (List.mem_singleton.mpr rfl) rfl

/-- C3 counterexample: the delete route removes the caller's matching
`QR_Code` row from the store instead of setting its archived flag — the
fixture link is gone afterwards, so the Link row is not retained. -/
theorem delete_removes_link_row_cex :
    (qDel ∈ exStoreDel.codes ∧ qDel.slug = "dl" ∧ qDel.userId = "u1") ∧
    (deleteHandler exStoreDel "u1" "dl").codes = [qKeep] ∧
    qDel ∉ (deleteHandler exStoreDel "u1" "dl").codes ∧
    (deleteHandler exStoreDel "u1" "dl").targets = exStoreDel.targets ∧
    (deleteHandler exStoreDel "u1" "dl").scans = exStoreDel.scans := by
  refine ⟨⟨by simp [exStoreDel], rfl, rfl⟩, rfl, ?_, rfl, rfl⟩
  intro hmem
  rw [show (deleteHandler exStoreDel "u1" "dl").codes = [qKeep] from rfl] at hmem
  have h : qDel = qKeep := by simpa using hmem
  exact absurd (congrArg QRCode.id h) (by decide)

/-- C3 (amended): the owner-facing delete is a hard delete of the Link
row: it removes exactly the caller's rows with that slug, never sets an
archived flag, and leaves every Target row, every ScanEvent row, and
every other Link row untouched. -/
theorem delete_hard_removes_link :
    ∀ (st : Store) (userId slug : String),
      (deleteHandler st userId slug).targets = st.targets ∧
      (deleteHandler st userId slug).scans = st.scans ∧
      (∀ q ∈ (deleteHandler st userId slug).codes, q ∈ st.codes) ∧
      (∀ q ∈ st.codes, ¬(q.slug = slug ∧ q.userId = userId) →
        q ∈ (deleteHandler st userId slug).codes) ∧
      (∀ q ∈ (deleteHandler st userId slug).codes,
        ¬(q.slug = slug ∧ q.userId = userId)) := by
  intro st u s
  refine ⟨rfl, rfl, ?_, ?_, ?_⟩
  · intro q hq
    exact (List.mem_filter.mp hq).1
  · intro q hq hne
    refine List.mem_filter.mpr ⟨hq, ?_⟩
    simp only [Bool.not_eq_eq_eq_not, Bool.not_true, Bool.and_eq_false_iff]
    by_cases h1 : q.slug = s
    · right
      have h2 : ¬ q.userId = u := fun h2 => hne ⟨h1, h2⟩
      simpa using h2
    · left
      simpa using h1
  · intro q hq hcontra
    have h2 := (List.mem_filter.mp hq).2
    rcases hcontra with ⟨e1, e2⟩
    simp [e1, e2] at h2

/-- Witness for C3's amended statement: deleting the fixture link keeps
the target table intact and keeps the other owner's same-slug link. -/
theorem delete_hard_removes_link_witness :
    (deleteHandler exStoreDel "u1" "dl").targets = exStoreDel.targets ∧
    qKeep ∈ (deleteHandler exStoreDel "u1" "dl").codes :=
  ⟨(delete_hard_removes_link exStoreDel "u1" "dl").1,
   (delete_hard_removes_link exStoreDel "u1" "dl").2.2.2.1 qKeep (by simp [exStoreDel])
     (by decide)⟩

/-- C2 counterexample: a link whose archived flag is set but whose
pointer still resolves is redirected by `GET /r/:slug`, not answered
with 404 — the resolution query never consults the archived column. -/
theorem archived_link_redirects_cex :
    qArch.archived = true ∧
    resolveSlug exStoreArch "arch" = some (qArch, t3R) ∧
    (rSlugHandler exStoreArch desktopReq "arch").1 = RResponse.redirect "https://example.com/x" ∧
    (rSlugHandler exStoreArch desktopReq "arch").1 ≠ RResponse.notFound := by
  refine ⟨rfl, rfl, rfl, ?_⟩
  rw [show (rSlugHandler exStoreArch desktopReq "arch").1
      = RResponse.redirect "https://example.com/x" from rfl]
  simp

/-- C2 (amended): `GET /r/:slug` answers 404 exactly when no link with
the slug resolves through `currentTargetId` to an existing target; the
archived flag is not consulted, so an archived link that still resolves
is redirected like an active one. -/
theorem resolution_404_iff_unresolved :
    ∀ (st : Store) (req : ScanRequest) (slug : String),
      ((rSlugHandler st req slug).1 = RResponse.notFound ↔ resolveSlug st slug = none) ∧
      (∀ q t, resolveSlug st slug = some (q, t) → q.archived = true →
        (rSlugHandler st req slug).1 = RResponse.redirect t.url) := by
  intro st req slug
  constructor
  · constructor
    · intro h
      cases hres : resolveSlug st slug with
      | none => rfl
      | some qt =>
        obtain ⟨q, t⟩ := qt
        simp only [rSlugHandler, hres] at h
        split at h <;> exact absurd h (by simp)
    · intro h
      simp [rSlugHandler, h]
  · intro q t hres _
    simp only [rSlugHandler, hres]
    split <;> rfl

/-- Witness for C2's amended statement: an unknown slug is answered 404,
and the archived fixture link is still redirected. -/
theorem resolution_404_iff_unresolved_witness :
    (rSlugHandler exStoreArch desktopReq "nope").1 = RResponse.notFound ∧
    (rSlugHandler exStoreArch desktopReq "arch").1 = RResponse.redirect "https://example.com/x" :=
  ⟨((resolution_404_iff_unresolved exStoreArch desktopReq "nope").1).mpr rfl,
   (resolution_404_iff_unresolved exStoreArch desktopReq "arch").2 qArch t3R rfl rfl⟩

/-- C1 counterexample: the fixture link's current target stores the UTM
source `newsletter`, yet the redirect goes to the bare stored URL — no
`utm_source` query parameter is appended to the destination. -/
theorem utm_not_merged_cex :
    t2R.utm = some (utmJson "newsletter" "" "") ∧
    resolveSlug exStoreR "abc" = some (qR, t2R) ∧
    (rSlugHandler exStoreR desktopReq "abc").1 = RResponse.redirect "https://example.com/v2" ∧
    (rSlugHandler exStoreR desktopReq "abc").1 ≠
      RResponse.redirect "https://example.com/v2?utm_source=newsletter" := by
  refine ⟨rfl, rfl, rfl, ?_⟩
  rw [show (rSlugHandler exStoreR desktopReq "abc").1
      = RResponse.redirect "https://example.com/v2" from rfl]
  exact by decide

/-- C1 (amended): the redirect destination of `GET /r/:slug` is the
resolved target's stored URL verbatim — no UTM query parameter is set or
overwritten on it; the target's stored UTM text is instead snapshotted
onto the ScanEvent recorded for a non-prefetch hit. -/
theorem redirect_url_verbatim :
    ∀ (st : Store) (req : ScanRequest) (slug : String) (q : QRCode) (t : Target),
      resolveSlug st slug = some (q, t) →
      (rSlugHandler st req slug).1 = RResponse.redirect t.url ∧
      (isPrefetch req.headers req.userAgent = false →
        (rSlugHandler st req slug).2.scans = st.scans ++
          [{ qrCodeId := q.id, targetId := t.id, uaRaw := req.userAgent,
             utm := jsOrNone t.utm, isPrefetchFlag := false }]) := by
  intro st req slug q t hres
  constructor
  · simp only [rSlugHandler, hres]
    split <;> rfl
  · intro hp
    simp [rSlugHandler, hres, hp]

/-- Witness for C1's amended statement: the desktop hit on the fixture
link redirects to the stored URL and snapshots the stored UTM text onto
the recorded scan. -/
theorem redirect_url_verbatim_witness :
    (rSlugHandler exStoreR desktopReq "abc").1 = RResponse.redirect t2R.url ∧
    (rSlugHandler exStoreR desktopReq "abc").2.scans = exStoreR.scans ++
      [{ qrCodeId := qR.id, targetId := t2R.id, uaRaw := desktopReq.userAgent,
         utm := jsOrNone t2R.utm, isPrefetchFlag := false }] := by
  have h := redirect_url_verbatim exStoreR desktopReq "abc" qR t2R rfl
  exact ⟨h.1, h.2 (by decide)⟩

/-- C4 counterexample: a hit classified as prefetch (the Facebook
crawler) is redirected but no ScanEvent at all is inserted — the scan is
skipped rather than logged with the prefetch flag set. -/
theorem prefetch_scan_skipped_cex :
    isPrefetch fbReq.headers fbReq.userAgent = true ∧
    (rSlugHandler exStoreR fbReq "abc").1 = RResponse.redirect "https://example.com/v2" ∧
    (rSlugHandler exStoreR fbReq "abc").2.scans = [] ∧
    exStoreR.scans = [] :=
  ⟨by decide, rfl, rfl, rfl⟩

/-- C4 (amended): on a resolvable slug the route always redirects, but a
ScanEvent is recorded only for hits classified non-prefetch (and is then
recorded with the prefetch flag clear); prefetch-classified hits leave
the store untouched. -/
theorem scan_logged_only_when_not_prefetch :
    ∀ (st : Store) (req : ScanRequest) (slug : String) (q : QRCode) (t : Target),
      resolveSlug st slug = some (q, t) →
      (rSlugHandler st req slug).1 = RResponse.redirect t.url ∧
      (isPrefetch req.headers req.userAgent = true →
        (rSlugHandler st req slug).2 = st) ∧
      (isPrefetch req.headers req.userAgent = false →
        (rSlugHandler st req slug).2.scans.length = st.scans.length + 1 ∧
        (rSlugHandler st req slug).2.scans.getLast? =
          some { qrCodeId := q.id, targetId := t.id, uaRaw := req.userAgent,
                 utm := jsOrNone t.utm, isPrefetchFlag := false }) := by
  intro st req slug q t hres
  refine ⟨?_, fun hp => ?_, fun hp => ⟨?_, ?_⟩⟩
  · simp only [rSlugHandler, hres]
    split <;> rfl
  · simp [rSlugHandler, hres, hp]
  · simp [rSlugHandler, hres, hp]
  · simp [rSlugHandler, hres, hp, List.getLast?_concat]

/-- Witness for C4's amended statement: the prefetch hit leaves the
fixture store unchanged, and the desktop hit appends exactly one scan. -/
theorem scan_logged_only_when_not_prefetch_witness :
    (rSlugHandler exStoreR fbReq "abc").2 = exStoreR ∧
    (rSlugHandler exStoreR desktopReq "abc").2.scans.length = exStoreR.scans.length + 1 :=
  ⟨(scan_logged_only_when_not_prefetch exStoreR fbReq "abc" qR t2R rfl).2.1 (by decide),
   ((scan_logged_only_when_not_prefetch exStoreR desktopReq "abc" qR t2R rfl).2.2 (by decide)).1⟩

lemma foldl_max_init_le (l : List Target) (a : Int) :
    a ≤ l.foldl (fun m t => max m t.version) a := by
  induction l generalizing a with
  | nil => simp
  | cons h t ih =>
    simp only [List.foldl_cons]
    exact le_trans (le_max_left a h.version) (ih (max a h.version))

lemma version_le_foldl_max (l : List Target) (t : Target) (ht : t ∈ l) :
    ∀ a : Int, t.version ≤ l.foldl (fun m u => max m u.version) a := by
  induction l with
  | nil => cases ht
  | cons h l ih =>
    intro a
    simp only [List.foldl_cons]
    rcases List.mem_cons.mp ht with he | hm
    · subst he
      exact le_trans (le_max_right a t.version) (foldl_max_init_le l _)
    · exact ih hm _

lemma mem_rangeVersions_le {x : Int} : ∀ k : Nat, x ∈ rangeVersions k → x ≤ k := by
  intro k
  induction k with
  | zero => intro h; simp [rangeVersions] at h
  | succ n ih =>
    intro h
    rcases List.mem_append.mp h with h | h
    · have := ih h
      push_cast
      omega
    · simp at h
      push_cast
      omega

lemma foldl_max_rangeVersions : ∀ k : Nat, (rangeVersions k).foldl max (0 : Int) = k := by
  intro k
  induction k with
  | zero => simp [rangeVersions]
  | succ n ih =>
    rw [show rangeVersions (n + 1) = rangeVersions n ++ [(n : Int) + 1] from rfl,
      List.foldl_append, ih]
    simp only [List.foldl_cons, List.foldl_nil]
    rw [max_eq_right (by omega)]
    push_cast
    ring

lemma rangeVersions_nodup : ∀ k : Nat, (rangeVersions k).Nodup := by
  intro k
  induction k with
  | zero => simp [rangeVersions]
  | succ n ih =>
    rw [show rangeVersions (n + 1) = rangeVersions n ++ [(n : Int) + 1] from rfl]
    refine List.nodup_append.mpr ⟨ih, List.nodup_singleton _, ?_⟩
    intro a ha hb
    have h1 := mem_rangeVersions_le n ha
    have h2 : a = (n : Int) + 1 := by simpa using hb
    omega

lemma nextVersion_of_rangeVersions (st : Store) (qid : String) (k : Nat)
    (hall : ∀ t ∈ st.targets, t.qrCodeId = qid)
    (hver : st.targets.map (fun t => t.version) = rangeVersions k) :
    nextVersion st qid = (k : Int) + 1 := by
  unfold nextVersion
  have hf : st.targets.filter (fun t => t.qrCodeId == qid) = st.targets := by
    apply List.filter_eq_self.mpr
    intro t ht
    simpa [beq_iff_eq] using hall t ht
  rw [hf]
  rw [show st.targets.foldl (fun m t => max m t.version) 0
      = (st.targets.map (fun t => t.version)).foldl max 0 from (List.foldl_map _ _ _ _).symm]
  rw [hver, foldl_max_rangeVersions]

lemma find?_pointerUpdate (l : List QRCode) (qid tid : String)
    (hex : ∃ c ∈ l, c.id = qid) :
    ∃ c', (l.map (fun c => if c.id == qid then { c with currentTargetId := some tid } else c)).find?
        (fun c => c.id == qid) = some c' ∧ c'.currentTargetId = some tid := by
  induction l with
  | nil =>
    obtain ⟨c, hc, _⟩ := hex
    cases hc
  | cons c t ih =>
    by_cases hc : (c.id == qid) = true
    · refine ⟨{ c with currentTargetId := some tid }, ?_, rfl⟩
      simp only [List.map_cons, hc, if_true]
      exact List.find?_cons_of_pos _ (by simpa using hc)
    · have hex' : ∃ c' ∈ t, c'.id = qid := by
        obtain ⟨c0, hc0, hid⟩ := hex
        rcases List.mem_cons.mp hc0 with he | hm
        · subst he
          exact absurd (by simp [hid]) hc
        · exact ⟨c0, hm, hid⟩
      obtain ⟨c', hf, hp⟩ := ih hex'
      refine ⟨c', ?_, hp⟩
      simp only [List.map_cons, hc, if_false]
      rw [List.find?_cons_of_neg _ (by simpa using hc)]
      exact hf

lemma iterStore_invariant : ∀ n : Nat,
    (iterStore n).codes = [{ iterCode with currentTargetId := some (tName n) }] ∧
    (∀ t ∈ (iterStore n).targets, t.qrCodeId = "q") ∧
    (iterStore n).targets.map (fun t => t.version) = rangeVersions (n + 1) := by
  intro n
  induction n with
  | zero =>
    refine ⟨rfl, ?_, rfl⟩
    intro t ht
    have h : t = iterTarget0 := by
      simpa [iterStore, iterBase] using ht
    rw [h]
    rfl
  | succ n ih =>
    obtain ⟨hcodes, hall, hver⟩ := ih
    have hfind : (iterStore n).codes.find? (fun q => q.slug == "s" && q.userId == "u")
        = some { iterCode with currentTargetId := some (tName n) } := by
      rw [hcodes]
      rfl
    have hnv : nextVersion (iterStore n) "q" = ((n + 1 : Nat) : Int) + 1 :=
      nextVersion_of_rangeVersions (iterStore n) "q" (n + 1) hall hver
    have hstep : iterStore (n + 1) =
        { codes := [{ iterCode with currentTargetId := some (tName (n + 1)) }],
          targets := (iterStore n).targets ++
            [{ id := tName (n + 1), qrCodeId := "q", url := "https://example.com/v2",
               version := nextVersion (iterStore n) "q", utm := some (utmJson "" "" "") }],
          scans := (iterStore n).scans } := by
      show (retargetHandler (iterStore n) "u" "s" "https://example.com/v2" "" "" ""
        (tName (n + 1))).2 = _
      simp only [retargetHandler, hfind]
      rw [hcodes]
      rfl
    refine ⟨?_, ?_, ?_⟩
    · rw [hstep]
    · intro t ht
      rw [hstep] at ht
      rcases List.mem_append.mp ht with h | h
      · exact hall t h
      · have he : t = { id := tName (n + 1), qrCodeId := "q",
                        url := "https://example.com/v2",
                        version := nextVersion (iterStore n) "q",
                        utm := some (utmJson "" "" "") } := by
          simpa using h
        rw [he]
    · rw [hstep]
      show ((iterStore n).targets ++ [_]).map (fun t : Target => t.version) = _
      rw [List.map_append, hver]
      show rangeVersions (n + 1) ++ [nextVersion (iterStore n) "q"] = rangeVersions (n + 2)
      rw [hnv]
      rfl

/-- C5: a retarget of an owned, existing link appends one new Target row
whose version is the link's stored maximum plus one (so 1 when the link
has no targets, and strictly above every existing version of that link),
modifies no prior Target row, and repoints the link's `currentTargetId`
at the newly inserted target; iterating retargets on the canonical
one-link store starting at version 1 yields the version lists
`[1, …, n+1]` with no gaps and no version reused. -/
theorem retarget_version_increments :
    (∀ (st : Store) (userId slug url source medium campaign newId : String) (q : QRCode),
      st.codes.find? (fun c => c.slug == slug && c.userId == userId) = some q →
      (retargetHandler st userId slug url source medium campaign newId).1 = true ∧
      (retargetHandler st userId slug url source medium campaign newId).2.targets
        = st.targets ++
          [{ id := newId, qrCodeId := q.id, url := url,
             version := nextVersion st q.id,
             utm := some (utmJson source medium campaign) }] ∧
      (∀ t ∈ st.targets, t.qrCodeId = q.id → t.version < nextVersion st q.id) ∧
      (st.targets.filter (fun t => t.qrCodeId == q.id) = [] → nextVersion st q.id = 1) ∧
      (∃ c', (retargetHandler st userId slug url source medium campaign
            newId).2.codes.find? (fun c => c.id == q.id) = some c' ∧
          c'.currentTargetId = some newId)) ∧
    (∀ n : Nat,
      (iterStore n).targets.map (fun t => t.version) = rangeVersions (n + 1) ∧
      ((iterStore n).targets.map (fun t => t.version)).Nodup) := by
  constructor
  · intro st userId slug url source medium campaign newId q hfind
    refine ⟨?_, ?_, ?_, ?_, ?_⟩
    · simp only [retargetHandler, hfind]
    · simp only [retargetHandler, hfind]
    · intro t ht hqid
      have hmem : t ∈ st.targets.filter (fun t => t.qrCodeId == q.id) :=
        List.mem_filter.mpr ⟨ht, by simp [hqid]⟩
      have hle := version_le_foldl_max _ t hmem 0
      unfold nextVersion
      omega
    · intro hfilter
      unfold nextVersion
      rw [hfilter]
      rfl
    · have hexist : ∃ c ∈ st.codes, c.id = q.id :=
        ⟨q, List.mem_of_find?_eq_some hfind, rfl⟩
      have h := find?_pointerUpdate st.codes q.id newId hexist
      simpa only [retargetHandler, hfind] using h
  · intro n
    refine ⟨(iterStore_invariant n).2.2, ?_⟩
    rw [(iterStore_invariant n).2.2]
    exact rangeVersions_nodup (n + 1)

/-- Witness for C5: one retarget of the canonical base store succeeds
and appends exactly the version-2 target, and after three retargets the
version history reads 1, 2, 3, 4. -/
theorem retarget_version_increments_witness :
    (retargetHandler iterBase "u" "s" "https://example.com/v2" "" "" "" "t1").1 = true ∧
    (retargetHandler iterBase "u" "s" "https://example.com/v2" "" "" "" "t1").2.targets
      = iterBase.targets ++
        [{ id := "t1", qrCodeId := iterCode.id, url := "https://example.com/v2",
           version := nextVersion iterBase iterCode.id,
           utm := some (utmJson "" "" "") }] ∧
    (iterStore 3).targets.map (fun t => t.version) = rangeVersions 4 := by
  have h1 := retarget_version_increments.1 iterBase "u" "s" "https://example.com/v2"
    "" "" "" "t1" iterCode rfl
  exact ⟨h1.1, h1.2.1, (retarget_version_increments.2 3).1⟩

/-- C6 counterexample: the minimal image `<svg></svg>` has no dimension
attributes and no viewBox, yet the composer does not return it
unchanged — it injects the logo markup anyway (using its built-in
default extents). -/
theorem inject_no_extent_not_noop_cex :
    matchWH svgBare = none ∧ matchVB svgBare = none ∧
    injectLogoIntoSvg svgBare "logo.png" 22 false "#ffffff" "#000000" ≠ svgBare := by
  refine ⟨by decide, by decide, ?_⟩
  intro heq
  have hlt := injectLogo_longer svgBare "logo.png" 22 false "#ffffff" "#000000" (by decide)
  rw [heq] at hlt
  exact lt_irrefl _ hlt

/-- C6 (amended): when the image's extent cannot be determined the
composer does not no-op; it falls back to the default extents (view-box
29, canvas 512) and still injects the logo markup, so whenever the
namespace-normalised input contains a closing `</svg>` tag the output
differs from the input. -/
theorem inject_no_extent_uses_defaults :
    ∀ (svg logoUrl : String) (pct : ℚ) (debug : Bool) (bg fg : String),
      matchWH svg = none → matchVB svg = none →
      containsSub (ensureXlink svg.toList) "</svg>".toList = true →
      viewBoxSizeOf svg = 29 ∧ canvasSizeOf svg = 512 ∧
      injectLogoIntoSvg svg logoUrl pct debug bg fg ≠ svg := by
  intro svg lu pct dbg bg fg hwh hvb hc
  refine ⟨by simp [viewBoxSizeOf, hvb], by simp [canvasSizeOf, hwh], ?_⟩
  intro heq
  have hlt := injectLogo_longer svg lu pct dbg bg fg hc
  rw [heq] at hlt
  exact lt_irrefl _ hlt

/-- Witness for C6's amended statement: on the bare fixture image the
defaults apply and the composition changes the image. -/
theorem inject_no_extent_uses_defaults_witness :
    viewBoxSizeOf svgBare = 29 ∧
    injectLogoIntoSvg svgBare "logo.png" 40 true "#fff" "#000" ≠ svgBare :=
  ⟨(inject_no_extent_uses_defaults svgBare "logo.png" 40 true "#fff" "#000"
      (by decide) (by decide) (by decide)).1,
   (inject_no_extent_uses_defaults svgBare "logo.png" 40 true "#fff" "#000"
      (by decide) (by decide) (by decide)).2.2⟩

/-- C7 counterexample: on an image carrying explicit 512-unit dimension
attributes and a 29-unit viewBox, the placement uses the viewBox, not
the dimension attributes: at sizePercent 22 the logo extent is 6.38
placed at 11.31, not the 112.64 at 199.68 the dimension attributes would
give — the explicit dimension attribute is not preferred. -/
theorem logo_geometry_ignores_dimension_attrs_cex :
    matchWH svgWH = some (512, 512) ∧ canvasSizeOf svgWH = 512 ∧
    matchVB svgWH = some (29, 29) ∧
    logoGeometry svgWH 22 = (319/50, 1131/100, 1131/100) ∧
    (logoGeometry svgWH 22).2.1 ≠ ((512 : ℚ) - 22/100 * 512) / 2 := by
  have hvb : viewBoxSizeOf svgWH = 29 := by decide
  refine ⟨by decide, by decide, by decide, ?_, ?_⟩
  · simp [logoGeometry, hvb]
    norm_num
  · simp [logoGeometry, hvb]
    norm_num

/-- C7 (amended): the logo geometry is computed from the declared
coordinate-system bounds alone — extent `pct/100 · min(a, b)` of the
matched viewBox numbers (with zero-value fallbacks), centred in the
view box — and is entirely independent of the width/height dimension
attributes: two images with the same viewBox match get identical
geometry; a 512-unit view box at 22 percent gives the 112.64-unit logo
at 199.68. -/
theorem logo_geometry_from_viewbox :
    (∀ (svg : String) (pct : ℚ) (a b : Nat), matchVB svg = some (a, b) →
      logoGeometry svg pct =
        (pct / 100 * ((min (jsOrNat a 29) (jsOrNat b 29) : Nat) : ℚ),
         (((min (jsOrNat a 29) (jsOrNat b 29) : Nat) : ℚ)
            - pct / 100 * ((min (jsOrNat a 29) (jsOrNat b 29) : Nat) : ℚ)) / 2,
         (((min (jsOrNat a 29) (jsOrNat b 29) : Nat) : ℚ)
            - pct / 100 * ((min (jsOrNat a 29) (jsOrNat b 29) : Nat) : ℚ)) / 2)) ∧
    (∀ (s1 s2 : String) (pct : ℚ), matchVB s1 = matchVB s2 →
      logoGeometry s1 pct = logoGeometry s2 pct) := by
  constructor
  · intro svg pct a b h
    simp [logoGeometry, viewBoxSizeOf, h]
  · intro s1 s2 pct h
    simp [logoGeometry, viewBoxSizeOf, h]

/-- Witness for C7's amended statement: the 512-unit view-box image at
22 percent yields the 112.64-unit logo centred at 199.68. -/
theorem logo_geometry_from_viewbox_witness :
    logoGeometry svgVB512 22 = (2816/25, 4992/25, 4992/25) := by
  have h := logo_geometry_from_viewbox.1 svgVB512 22 512 512 (by decide)
  rw [h]
  norm_num [jsOrNat]
